import Mathlib

/-!
Shallow embedding of the session/connection manager of the pong relay
server (`src/server.js`).  JS `Map`s become association lists with the
insertion-order semantics of `Map.set` / `Map.delete`; `Date.now()` and
`Math.random()` become explicit parameters (an `Int` clock and the list
of base-36 digits of the random draw's fractional expansion).
-/

/-- JS `Map.get`: value of the first (unique) entry with the given key. -/
def mapGet {α β : Type} [DecidableEq α] (m : List (α × β)) (k : α) : Option β :=
  (m.find? (fun p => decide (p.1 = k))).map Prod.snd

/-- JS `Map.set`: replace the value in place when the key is present,
otherwise append the new entry. -/
def mapSet {α β : Type} [DecidableEq α] (m : List (α × β)) (k : α) (v : β) :
    List (α × β) :=
  if (m.find? (fun p => decide (p.1 = k))).isSome then
    m.map (fun p => if p.1 = k then (k, v) else p)
  else
    m ++ [(k, v)]

/-- JS `Map.delete`: remove the entry with the given key. -/
def mapDelete {α β : Type} [DecidableEq α] (m : List (α × β)) (k : α) :
    List (α × β) :=
  m.filter (fun p => decide (¬ p.1 = k))

/-- Session status, `'waiting'` / `'playing'` in the source. -/
inductive Status where
  | waiting
  | playing
deriving DecidableEq, Repr

/-- The opaque ball payload relayed by the host (`{x, y}` coordinates). -/
structure BallV where
  x : Int
  y : Int
deriving DecidableEq, Repr

/-- The `gameData` record built by `GameManager.createGame`. -/
structure GameData where
  id : String
  host : Option String
  hostName : String
  guest : Option String
  guestName : Option String
  ball : Option BallV
  leftScore : Int
  rightScore : Int
  leftPaddleY : Int
  rightPaddleY : Int
  remainingTime : Int
  lastActivity : Int
  status : Status
deriving DecidableEq, Repr

/-- The two tables owned by `GameManager`: `activeGames` (session table,
session id to record) and `playerSockets` (membership index, connection
id to session id). -/
structure ServerState where
  activeGames : List (String × GameData)
  playerSockets : List (String × String)
deriving DecidableEq, Repr

/-- The empty `GameManager` state built by the constructor. -/
def initialState : ServerState := ⟨[], []⟩

/-- One base-36 digit of `Math.random().toString(36)`, upper-cased by
`.toUpperCase()`: `0`-`9` stay digits, `10`-`35` become `A`-`Z`. -/
def digitCharUpper (d : Fin 36) : Char :=
  if d.val < 10 then Char.ofNat (48 + d.val) else Char.ofNat (55 + d.val)

/-- `GameManager.generateGameId`:
`Math.random().toString(36).substring(2, 8).toUpperCase()`.
`ds` is the (trailing-zero-free) base-36 fractional expansion of the
draw; `substring(2, 8)` keeps at most its first six digits. -/
def generateGameId (ds : List (Fin 36)) : String :=
  String.mk ((ds.take 6).map digitCharUpper)

/-- `GameManager.createGame(hostId, hostName)`: builds a fresh `waiting`
record, stores it under the generated id, and points the host's
membership entry at it.  Returns the new state and the record. -/
def createGame (st : ServerState) (ds : List (Fin 36)) (now : Int)
    (hostId hostName : String) : ServerState × GameData :=
  let gameId := generateGameId ds
  let gameData : GameData :=
    { id := gameId
      host := some hostId
      hostName := hostName
      guest := none
      guestName := none
      ball := none
      leftScore := 0
      rightScore := 0
      leftPaddleY := 0
      rightPaddleY := 0
      remainingTime := 120
      lastActivity := now
      status := Status.waiting }
  (⟨mapSet st.activeGames gameId gameData,
    mapSet st.playerSockets hostId gameId⟩, gameData)

/-- `GameManager.joinGame(gameId, guestId, guestName)`: `null` when the
session is absent or its guest slot occupied; otherwise fills the guest
slot, flips the status to `playing`, refreshes `lastActivity` and
registers the guest in the membership index. -/
def joinGame (st : ServerState) (now : Int) (gameId guestId guestName : String) :
    ServerState × Option GameData :=
  match mapGet st.activeGames gameId with
  | none => (st, none)
  | some game =>
    if game.guest.isSome then (st, none)
    else
      let game' : GameData :=
        { game with
          guest := some guestId
          guestName := some guestName
          status := Status.playing
          lastActivity := now }
      (⟨mapSet st.activeGames gameId game',
        mapSet st.playerSockets guestId gameId⟩, some game')

/-- `GameManager.removeGame(gameId)`: no-op when absent; otherwise drops
the host's membership entry, the guest's when present, and the session. -/
def removeGame (st : ServerState) (gameId : String) : ServerState :=
  match mapGet st.activeGames gameId with
  | none => st
  | some game =>
    let ps1 := match game.host with
      | some h => mapDelete st.playerSockets h
      | none => st.playerSockets
    let ps2 := match game.guest with
      | some g => mapDelete ps1 g
      | none => ps1
    ⟨mapDelete st.activeGames gameId, ps2⟩

/-- The body of the `cleanupInactiveGames` loop: remove one session when
its `lastActivity` is over the idle threshold. -/
def sweepStep (now threshold : Int) (s : ServerState) (p : String × GameData) :
    ServerState :=
  if now - p.2.lastActivity > threshold then removeGame s p.1 else s

/-- `GameManager.cleanupInactiveGames`: iterates the session table and
calls `removeGame` on every session with `now - lastActivity > threshold`. -/
def cleanupInactiveGames (st : ServerState) (now threshold : Int) : ServerState :=
  List.foldl (sweepStep now threshold) st st.activeGames

/-- One entry of the `requestGameList` reply. -/
structure GameListEntry where
  id : String
  name : String
  createdAt : Int
deriving DecidableEq, Repr

/-- `GameManager.getAvailableGames`: the `waiting` sessions, each shown
as `{id, name, createdAt}`; the source fills `createdAt` from the
record's `lastActivity` field. -/
def getAvailableGames (st : ServerState) : List GameListEntry :=
  ((st.activeGames.map Prod.snd).filter (fun g => decide (g.status = Status.waiting))).map
    (fun g => ⟨g.id, g.hostName ++ "\x27s Game", g.lastActivity⟩)

/-- Outbound events emitted by the router handlers; the target is the
value of the `io.to(...)` argument (`none` models a `null` target). -/
inductive EmitEvent where
  | ballUpdate (target : Option String) (ball : BallV)
  | scoreUpdate (target : Option String) (leftScore rightScore : Int)
  | timerUpdate (target : Option String) (remainingTime : Int)
  | hostDisconnected (target : Option String)
  | guestDisconnected (target : Option String)
deriving DecidableEq, Repr

/-- The `ballUpdate` handler: drops the event unless the sender is the
registered host of its mapped session; otherwise stores the ball,
touches `lastActivity` and forwards to the guest. -/
def handleBallUpdate (st : ServerState) (now : Int) (senderId : String)
    (ball : BallV) : ServerState × List EmitEvent :=
  match mapGet st.playerSockets senderId with
  | none => (st, [])
  | some gameId =>
    match mapGet st.activeGames gameId with
    | none => (st, [])
    | some game =>
      if game.host = some senderId then
        let game' := { game with ball := some ball, lastActivity := now }
        (⟨mapSet st.activeGames gameId game', st.playerSockets⟩,
         [EmitEvent.ballUpdate game.guest ball])
      else (st, [])

/-- The `scoreUpdate` handler, same gating as `ballUpdate`. -/
def handleScoreUpdate (st : ServerState) (now : Int) (senderId : String)
    (leftScore rightScore : Int) : ServerState × List EmitEvent :=
  match mapGet st.playerSockets senderId with
  | none => (st, [])
  | some gameId =>
    match mapGet st.activeGames gameId with
    | none => (st, [])
    | some game =>
      if game.host = some senderId then
        let game' := { game with
          leftScore := leftScore, rightScore := rightScore, lastActivity := now }
        (⟨mapSet st.activeGames gameId game', st.playerSockets⟩,
         [EmitEvent.scoreUpdate game.guest leftScore rightScore])
      else (st, [])

/-- The `timerUpdate` handler, same gating as `ballUpdate`. -/
def handleTimerUpdate (st : ServerState) (now : Int) (senderId : String)
    (remainingTime : Int) : ServerState × List EmitEvent :=
  match mapGet st.playerSockets senderId with
  | none => (st, [])
  | some gameId =>
    match mapGet st.activeGames gameId with
    | none => (st, [])
    | some game =>
      if game.host = some senderId then
        let game' := { game with remainingTime := remainingTime, lastActivity := now }
        (⟨mapSet st.activeGames gameId game', st.playerSockets⟩,
         [EmitEvent.timerUpdate game.guest remainingTime])
      else (st, [])

/-- The sender is currently the registered host of the session its
membership entry points at (the guard chain of the relay handlers). -/
def isRegisteredHost (st : ServerState) (c : String) : Bool :=
  match mapGet st.playerSockets c with
  | none => false
  | some gameId =>
    match mapGet st.activeGames gameId with
    | none => false
    | some game => decide (game.host = some c)

/-- The `disconnect` handler: host departure removes the session (after
notifying the guest); guest departure clears the guest slot and returns
the session to `waiting` (notifying the host); in every reached branch
the departing connection's membership entry is dropped. -/
def handleDisconnect (st : ServerState) (senderId : String) :
    ServerState × List EmitEvent :=
  match mapGet st.playerSockets senderId with
  | none => (st, [])
  | some gameId =>
    match mapGet st.activeGames gameId with
    | none => (st, [])
    | some game =>
      if game.host = some senderId then
        let emits := match game.guest with
          | some g => [EmitEvent.hostDisconnected (some g)]
          | none => []
        let st1 := removeGame st gameId
        (⟨st1.activeGames, mapDelete st1.playerSockets senderId⟩, emits)
      else if game.guest = some senderId then
        let game' := { game with
          guest := none, guestName := none, status := Status.waiting }
        (⟨mapSet st.activeGames gameId game',
          mapDelete st.playerSockets senderId⟩,
         [EmitEvent.guestDisconnected game.host])
      else
        (⟨st.activeGames, mapDelete st.playerSockets senderId⟩, [])

/-- Modelled from the spec: `leaveAsGuest(id)` as §4.1 words it — clears
guest slot and name, resets status to `waiting`, removes the guest's
membership entry, and *updates `lastActivity`* to the current time.  The
source's disconnect handler (the code the spec derives this from) has no
such `lastActivity` update; this definition exists only to be compared
with `handleDisconnect`. -/
def leaveAsGuestSpec (st : ServerState) (now : Int) (gameId : String) :
    ServerState :=
  match mapGet st.activeGames gameId with
  | none => st
  | some game =>
    let game' := { game with
      guest := none, guestName := none, status := Status.waiting,
      lastActivity := now }
    ⟨mapSet st.activeGames gameId game',
     match game.guest with
     | some g => mapDelete st.playerSockets g
     | none => st.playerSockets⟩

/-- The registry operations quantified over by the invariant claims:
session creation, join, removal, participant departure and idle sweep. -/
inductive Op where
  | create (ds : List (Fin 36)) (now : Int) (hostId hostName : String)
  | join (now : Int) (gameId guestId guestName : String)
  | remove (gameId : String)
  | disconnect (connId : String)
  | sweep (now threshold : Int)

/-- Apply one registry operation (discarding return values / emissions). -/
def applyOp (st : ServerState) : Op → ServerState
  | Op.create ds now h hn => (createGame st ds now h hn).1
  | Op.join now gid g gn => (joinGame st now gid g gn).1
  | Op.remove gid => removeGame st gid
  | Op.disconnect c => (handleDisconnect st c).1
  | Op.sweep now thr => cleanupInactiveGames st now thr

/-- Run a sequence of registry operations from the empty manager state. -/
def runOps (ops : List Op) : ServerState :=
  List.foldl applyOp initialState ops

/-! ### Concrete scenario states used by witnesses and counterexamples -/

/-- Digits of a draw such as `0.52471...` whose base-36 expansion starts
with six `18`s (`i`); the generated session id is `"IIIIII"`. -/
def dsI : List (Fin 36) := List.replicate 6 18

/-- Digits of a draw whose base-36 expansion starts with six `10`s
(`a`); the generated session id is `"AAAAAA"`. -/
def dsJ : List (Fin 36) := List.replicate 6 10

/-- State after connection `"A"` (name `Alice`) creates a session at
time `100`; the draw yields id `"IIIIII"`. -/
def stA : ServerState := (createGame initialState dsI 100 "A" "Alice").1

/-- State after connection `"B"` (name `Bob`) joins `"IIIIII"` at time
`200`. -/
def stAB : ServerState := (joinGame stA 200 "IIIIII" "B" "Bob").1

/-- State after guest `"B"` disconnects from the playing session. -/
def stAfterLeave : ServerState := (handleDisconnect stAB "B").1

/-- State after a second `createGame` whose draw collides with the id of
the session already stored in `stA`. -/
def stCollide : ServerState := (createGame stA dsI 200 "B" "Bob").1

/-- The session record held in `stA` (Alice waiting alone). -/
def gAlice : GameData :=
  { id := "IIIIII"
    host := some "A"
    hostName := "Alice"
    guest := none
    guestName := none
    ball := none
    leftScore := 0
    rightScore := 0
    leftPaddleY := 0
    rightPaddleY := 0
    remainingTime := 120
    lastActivity := 100
    status := Status.waiting }

/-- The session record held in `stAB` (Alice and Bob playing). -/
def gPlaying : GameData :=
  { id := "IIIIII"
    host := some "A"
    hostName := "Alice"
    guest := some "B"
    guestName := some "Bob"
    ball := none
    leftScore := 0
    rightScore := 0
    leftPaddleY := 0
    rightPaddleY := 0
    remainingTime := 120
    lastActivity := 200
    status := Status.playing }

/-- The record produced by the colliding second `createGame` (Bob
displaces Alice under the same id). -/
def gBobCollide : GameData :=
  { id := "IIIIII"
    host := some "B"
    hostName := "Bob"
    guest := none
    guestName := none
    ball := none
    leftScore := 0
    rightScore := 0
    leftPaddleY := 0
    rightPaddleY := 0
    remainingTime := 120
    lastActivity := 200
    status := Status.waiting }

/-- The operation sequence reaching `stAB` from the empty state. -/
def opsAB : List Op :=
  [Op.create dsI 100 "A" "Alice", Op.join 200 "IIIIII" "B" "Bob"]

/-! ### Association-map lemmas -/

theorem mapGet_cons {α β : Type} [DecidableEq α] (p : α × β) (m : List (α × β))
    (k : α) :
    mapGet (p :: m) k = if p.1 = k then some p.2 else mapGet m k := by
  by_cases h : p.1 = k <;> simp [mapGet, List.find?_cons, h]

theorem mapDelete_cons {α β : Type} [DecidableEq α] (p : α × β) (m : List (α × β))
    (k : α) :
    mapDelete (p :: m) k = if p.1 = k then mapDelete m k else p :: mapDelete m k := by
  by_cases h : p.1 = k <;> simp [mapDelete, List.filter_cons, h]

theorem mapGet_eq_none_iff {α β : Type} [DecidableEq α] {m : List (α × β)} {k : α} :
    mapGet m k = none ↔ ∀ p ∈ m, ¬ p.1 = k := by
  simp [mapGet, List.find?_eq_none]

theorem mapGet_map_update_ne {α β : Type} [DecidableEq α] (m : List (α × β))
    (k k' : α) (v : β) (h : k' ≠ k) :
    mapGet (m.map (fun p => if p.1 = k then (k, v) else p)) k' = mapGet m k' := by
  induction m with
  | nil => rfl
  | cons p m ih =>
    rw [List.map_cons]
    by_cases hp : p.1 = k
    · rw [if_pos hp, mapGet_cons, mapGet_cons]
      rw [if_neg (fun hk => h hk.symm), if_neg (fun hk => h (hk.symm.trans hp))]
      exact ih
    · rw [if_neg hp, mapGet_cons, mapGet_cons]
      by_cases hk : p.1 = k'
      · rw [if_pos hk, if_pos hk]
      · rw [if_neg hk, if_neg hk]
        exact ih

theorem mapGet_map_update_self {α β : Type} [DecidableEq α] {m : List (α × β)}
    {k : α} (v : β) (h : (mapGet m k).isSome = true) :
    mapGet (m.map (fun p => if p.1 = k then (k, v) else p)) k = some v := by
  induction m with
  | nil => simp [mapGet] at h
  | cons p m ih =>
    rw [mapGet_cons] at h
    rw [List.map_cons]
    by_cases hp : p.1 = k
    · rw [if_pos hp, mapGet_cons, if_pos rfl]
    · rw [if_neg hp] at h
      rw [if_neg hp, mapGet_cons, if_neg hp]
      exact ih h

theorem mapGet_append_single {α β : Type} [DecidableEq α] (m : List (α × β))
    (k k' : α) (v : β) :
    mapGet (m ++ [(k, v)]) k' =
      match mapGet m k' with
      | some w => some w
      | none => if k = k' then some v else none := by
  induction m with
  | nil => simp [mapGet, mapGet_cons]
  | cons p m ih =>
    rw [List.cons_append, mapGet_cons, mapGet_cons]
    by_cases hp : p.1 = k'
    · simp [hp]
    · simp only [if_neg hp]
      exact ih

theorem isSome_find?_iff_mapGet {α β : Type} [DecidableEq α] (m : List (α × β))
    (k : α) :
    (m.find? (fun p => decide (p.1 = k))).isSome = (mapGet m k).isSome := by
  simp [mapGet]

theorem mapGet_mapSet_self {α β : Type} [DecidableEq α] (m : List (α × β))
    (k : α) (v : β) :
    mapGet (mapSet m k v) k = some v := by
  unfold mapSet
  by_cases h : (m.find? (fun p => decide (p.1 = k))).isSome
  · rw [if_pos h]
    exact mapGet_map_update_self v ((isSome_find?_iff_mapGet m k) ▸ h)
  · rw [if_neg h, mapGet_append_single]
    have hn : mapGet m k = none := by
      rw [isSome_find?_iff_mapGet] at h
      exact Option.not_isSome_iff_eq_none.mp h
    rw [hn]
    simp

theorem mapGet_mapSet_ne {α β : Type} [DecidableEq α] (m : List (α × β))
    {k k' : α} (v : β) (h : k' ≠ k) :
    mapGet (mapSet m k v) k' = mapGet m k' := by
  unfold mapSet
  by_cases hf : (m.find? (fun p => decide (p.1 = k))).isSome
  · rw [if_pos hf]
    exact mapGet_map_update_ne m k k' v h
  · rw [if_neg hf, mapGet_append_single]
    cases hm : mapGet m k' with
    | some w => rfl
    | none => exact if_neg (fun hk => h hk.symm)

theorem mapGet_mapDelete_self {α β : Type} [DecidableEq α] (m : List (α × β))
    (k : α) :
    mapGet (mapDelete m k) k = none := by
  induction m with
  | nil => rfl
  | cons p m ih =>
    rw [mapDelete_cons]
    by_cases hp : p.1 = k
    · rw [if_pos hp]
      exact ih
    · rw [if_neg hp, mapGet_cons, if_neg hp]
      exact ih

theorem mapGet_mapDelete_ne {α β : Type} [DecidableEq α] (m : List (α × β))
    {k k' : α} (h : k' ≠ k) :
    mapGet (mapDelete m k) k' = mapGet m k' := by
  induction m with
  | nil => rfl
  | cons p m ih =>
    rw [mapDelete_cons, mapGet_cons]
    by_cases hp : p.1 = k
    · rw [if_pos hp, if_neg (fun hk => h (hk.symm.trans hp))]
      exact ih
    · rw [if_neg hp, mapGet_cons]
      by_cases hk : p.1 = k'
      · rw [if_pos hk, if_pos hk]
      · rw [if_neg hk, if_neg hk]
        exact ih

theorem mapGet_eq_some_mem {α β : Type} [DecidableEq α] {m : List (α × β)} {k : α}
    {v : β} (h : mapGet m k = some v) : (k, v) ∈ m := by
  induction m with
  | nil => simp [mapGet] at h
  | cons p m ih =>
    rw [mapGet_cons] at h
    by_cases hp : p.1 = k
    · rw [if_pos hp] at h
      injection h with h
      have hpv : (k, v) = p := by rw [← hp, ← h]
      exact List.mem_cons.mpr (Or.inl hpv)
    · rw [if_neg hp] at h
      exact List.mem_cons.mpr (Or.inr (ih h))

theorem mem_mapGet_of_keys_nodup {α β : Type} [DecidableEq α] {m : List (α × β)}
    (hnd : (m.map Prod.fst).Nodup) {p : α × β} (hp : p ∈ m) :
    mapGet m p.1 = some p.2 := by
  induction m with
  | nil => cases hp
  | cons q m ih =>
    rw [List.map_cons, List.nodup_cons] at hnd
    rw [mapGet_cons]
    rcases List.mem_cons.mp hp with h | h
    · rw [h, if_pos rfl]
    · by_cases hq : q.1 = p.1
      · exact absurd (by rw [hq]; exact List.mem_map_of_mem Prod.fst h) hnd.1
      · rw [if_neg hq]
        exact ih hnd.2 h

theorem eq_of_mem_keys_nodup {α β : Type} [DecidableEq α] {m : List (α × β)}
    (hnd : (m.map Prod.fst).Nodup) {p q : α × β} (hp : p ∈ m) (hq : q ∈ m)
    (hk : p.1 = q.1) : p = q := by
  have h1 := mem_mapGet_of_keys_nodup hnd hp
  have h2 := mem_mapGet_of_keys_nodup hnd hq
  rw [hk, h2] at h1
  injection h1 with h1
  cases p
  cases q
  simp_all

theorem keys_nodup_mapSet {α β : Type} [DecidableEq α] (m : List (α × β)) (k : α)
    (v : β) (hnd : (m.map Prod.fst).Nodup) :
    ((mapSet m k v).map Prod.fst).Nodup := by
  unfold mapSet
  by_cases hf : (m.find? (fun p => decide (p.1 = k))).isSome
  · rw [if_pos hf]
    have hkeys : (m.map (fun p => if p.1 = k then (k, v) else p)).map Prod.fst
        = m.map Prod.fst := by
      rw [List.map_map]
      apply List.map_congr_left
      intro p hp
      by_cases hpk : p.1 = k
      · simp [hpk]
      · simp [hpk]
    rw [hkeys]
    exact hnd
  · rw [if_neg hf, List.map_append, List.nodup_append]
    have hno : mapGet m k = none := by
      rw [isSome_find?_iff_mapGet] at hf
      exact Option.not_isSome_iff_eq_none.mp hf
    rw [mapGet_eq_none_iff] at hno
    refine ⟨hnd, List.nodup_singleton k, ?_⟩
    intro a ha hmem
    rcases List.mem_map.mp ha with ⟨p, hpm, hpa⟩
    rcases List.mem_singleton.mp hmem with rfl
    exact hno p hpm hpa

theorem keys_nodup_mapDelete {α β : Type} [DecidableEq α] (m : List (α × β))
    (k : α) (hnd : (m.map Prod.fst).Nodup) :
    ((mapDelete m k).map Prod.fst).Nodup :=
  hnd.sublist ((List.filter_sublist m).map Prod.fst)

theorem mem_mapSet_self {α β : Type} [DecidableEq α] (m : List (α × β)) (k : α)
    (v : β) : (k, v) ∈ mapSet m k v := by
  unfold mapSet
  by_cases hf : (m.find? (fun p => decide (p.1 = k))).isSome
  · rw [if_pos hf]
    have hs : (mapGet m k).isSome = true := (isSome_find?_iff_mapGet m k) ▸ hf
    obtain ⟨w, hw⟩ := Option.isSome_iff_exists.mp hs
    refine List.mem_map.mpr ⟨(k, w), mapGet_eq_some_mem hw, ?_⟩
    simp
  · rw [if_neg hf]
    exact List.mem_append_right m (List.mem_singleton_self (k, v))

theorem mapGet_filter {α β : Type} [DecidableEq α] (P : α × β → Bool)
    {m : List (α × β)} (hnd : (m.map Prod.fst).Nodup) (k : α) :
    mapGet (m.filter P) k =
      match mapGet m k with
      | some v => if P (k, v) then some v else none
      | none => none := by
  induction m with
  | nil => rfl
  | cons p m ih =>
    rw [List.map_cons, List.nodup_cons] at hnd
    by_cases hp : p.1 = k
    · have hkeys : mapGet m k = none := by
        rw [mapGet_eq_none_iff]
        intro q hq hqk
        exact hnd.1 (by rw [hp, ← hqk]; exact List.mem_map_of_mem Prod.fst hq)
      have hpk : (k, p.2) = p := by rw [← hp]
      by_cases hP : P p = true
      · simp [List.filter_cons, hP, mapGet_cons, hp, hpk]
      · simp [List.filter_cons, hP, mapGet_cons, hp, hpk, ih hnd.2, hkeys]
    · by_cases hP : P p = true
      · simp [List.filter_cons, hP, mapGet_cons, hp, ih hnd.2]
      · simp [List.filter_cons, hP, mapGet_cons, hp, ih hnd.2]

/-! ### removeGame and idle-sweep lemmas -/

theorem removeGame_none {st : ServerState} {gid : String}
    (h : mapGet st.activeGames gid = none) : removeGame st gid = st := by
  unfold removeGame
  rw [h]

theorem removeGame_some_activeGames {st : ServerState} {gid : String} {g : GameData}
    (h : mapGet st.activeGames gid = some g) :
    (removeGame st gid).activeGames = mapDelete st.activeGames gid := by
  unfold removeGame
  rw [h]

theorem sweep_fold_activeGames (now thr : Int) :
    ∀ (L : List (String × GameData)) (s : ServerState),
      (∀ p ∈ L, mapGet s.activeGames p.1 = some p.2) →
      ((L.map Prod.fst).Nodup) →
      ((s.activeGames.map Prod.fst).Nodup) →
      (List.foldl (sweepStep now thr) s L).activeGames
        = s.activeGames.filter
            (fun q => !(decide (q.1 ∈ L.map Prod.fst)
                && decide (now - q.2.lastActivity > thr))) := by
  intro L
  induction L with
  | nil =>
    intro s _ _ _
    rw [List.foldl_nil]
    symm
    apply List.filter_eq_self.mpr
    intro q _
    simp
  | cons p L ih =>
    intro s hL hndL hndS
    rw [List.map_cons, List.nodup_cons] at hndL
    rw [List.foldl_cons]
    have hp : mapGet s.activeGames p.1 = some p.2 := hL p (List.mem_cons_self p L)
    by_cases hc : now - p.2.lastActivity > thr
    · have hstep : sweepStep now thr s p = removeGame s p.1 := by
        unfold sweepStep
        rw [if_pos hc]
      rw [hstep]
      have hag : (removeGame s p.1).activeGames = mapDelete s.activeGames p.1 :=
        removeGame_some_activeGames hp
      have hL' : ∀ q ∈ L, mapGet (removeGame s p.1).activeGames q.1 = some q.2 := by
        intro q hq
        rw [hag, mapGet_mapDelete_ne]
        · exact hL q (List.mem_cons_of_mem p hq)
        · intro he
          exact hndL.1 (he ▸ List.mem_map_of_mem Prod.fst hq)
      have hndS' : ((removeGame s p.1).activeGames.map Prod.fst).Nodup := by
        rw [hag]
        exact keys_nodup_mapDelete _ _ hndS
      rw [ih (removeGame s p.1) hL' hndL.2 hndS', hag]
      unfold mapDelete
      rw [List.filter_filter]
      apply List.filter_congr
      intro q hq
      by_cases hqp : q.1 = p.1
      · have hqe : q = (p.1, p.2) :=
          eq_of_mem_keys_nodup hndS hq (mapGet_eq_some_mem hp) hqp
        simp [hqe, hc]
      · have hb : (q.1 == p.1) = false := beq_eq_false_iff_ne.mpr hqp
        simp [hqp, hb]
    · have hstep : sweepStep now thr s p = s := by
        unfold sweepStep
        rw [if_neg hc]
      rw [hstep, ih s (fun q hq => hL q (List.mem_cons_of_mem p hq)) hndL.2 hndS]
      apply List.filter_congr
      intro q hq
      by_cases hqp : q.1 = p.1
      · have hqe : q = (p.1, p.2) :=
          eq_of_mem_keys_nodup hndS hq (mapGet_eq_some_mem hp) hqp
        simp [hqe, hc]
      · have hb : (q.1 == p.1) = false := beq_eq_false_iff_ne.mpr hqp
        simp [hqp, hb]

theorem cleanup_activeGames (st : ServerState) (now thr : Int)
    (hnd : (st.activeGames.map Prod.fst).Nodup) :
    (cleanupInactiveGames st now thr).activeGames
      = st.activeGames.filter (fun q => !decide (now - q.2.lastActivity > thr)) := by
  unfold cleanupInactiveGames
  rw [sweep_fold_activeGames now thr st.activeGames st
    (fun p hp => mem_mapGet_of_keys_nodup hnd hp) hnd hnd]
  apply List.filter_congr
  intro q hq
  simp [List.mem_map_of_mem Prod.fst hq]

theorem cleanup_mapGet (st : ServerState) (now thr : Int)
    (hnd : (st.activeGames.map Prod.fst).Nodup) (k : String) :
    mapGet (cleanupInactiveGames st now thr).activeGames k =
      match mapGet st.activeGames k with
      | some g => if now - g.lastActivity > thr then none else some g
      | none => none := by
  rw [cleanup_activeGames st now thr hnd,
      mapGet_filter (fun q => !decide (now - q.2.lastActivity > thr)) hnd k]
  cases hm : mapGet st.activeGames k with
  | none => rfl
  | some g =>
    by_cases hc : now - g.lastActivity > thr
    · simp [hc]
    · simp [hc]

/-! ### Session invariants over operation sequences -/

/-- Per-session well-formedness preserved by every registry operation:
the host slot is filled, and a `playing` session has a filled guest
slot. -/
def sessionInvB (p : String × GameData) : Bool :=
  p.2.host.isSome && (decide (p.2.status = Status.waiting) || p.2.guest.isSome)

theorem all_mapSet {α β : Type} [DecidableEq α] (P : α × β → Bool)
    (m : List (α × β)) (k : α) (v : β) (hm : m.all P = true)
    (hv : P (k, v) = true) : (mapSet m k v).all P = true := by
  unfold mapSet
  by_cases hf : (m.find? (fun p => decide (p.1 = k))).isSome
  · rw [if_pos hf, List.all_eq_true]
    intro q hq
    rcases List.mem_map.mp hq with ⟨r, hr, hrq⟩
    by_cases hrk : r.1 = k
    · rw [← hrq, if_pos hrk]
      exact hv
    · rw [← hrq, if_neg hrk]
      exact (List.all_eq_true.mp hm) r hr
  · rw [if_neg hf, List.all_append, hm]
    simp [hv]

theorem all_filter_of_all {α : Type} (P Q : α → Bool) (l : List α)
    (h : l.all P = true) : (l.filter Q).all P = true := by
  rw [List.all_eq_true] at h ⊢
  intro x hx
  exact h x (List.mem_of_mem_filter hx)

theorem all_sweep_fold (now thr : Int) (P : String × GameData → Bool) :
    ∀ (L : List (String × GameData)) (s : ServerState),
      s.activeGames.all P = true →
      (List.foldl (sweepStep now thr) s L).activeGames.all P = true := by
  intro L
  induction L with
  | nil =>
    intro s hs
    exact hs
  | cons p L ih =>
    intro s hs
    rw [List.foldl_cons]
    apply ih
    unfold sweepStep
    by_cases hc : now - p.2.lastActivity > thr
    · rw [if_pos hc]
      cases hm : mapGet s.activeGames p.1 with
      | none =>
        rw [removeGame_none hm]
        exact hs
      | some g =>
        rw [removeGame_some_activeGames hm]
        unfold mapDelete
        exact all_filter_of_all _ _ _ hs
    · rw [if_neg hc]
      exact hs

theorem inv_applyOp (st : ServerState) (op : Op)
    (h : st.activeGames.all sessionInvB = true) :
    (applyOp st op).activeGames.all sessionInvB = true := by
  cases op with
  | create ds now hostId hostName =>
    apply all_mapSet _ _ _ _ h
    simp [sessionInvB]
  | join now gid g gn =>
    show (joinGame st now gid g gn).1.activeGames.all sessionInvB = true
    unfold joinGame
    cases hm : mapGet st.activeGames gid with
    | none => exact h
    | some game =>
      dsimp only
      by_cases hg : game.guest.isSome = true
      · rw [if_pos hg]
        exact h
      · rw [if_neg hg]
        apply all_mapSet _ _ _ _ h
        have hmem := (List.all_eq_true.mp h) (gid, game) (mapGet_eq_some_mem hm)
        unfold sessionInvB at hmem ⊢
        rw [Bool.and_eq_true] at hmem
        simp [hmem.1]
  | remove gid =>
    show (removeGame st gid).activeGames.all sessionInvB = true
    cases hm : mapGet st.activeGames gid with
    | none =>
      rw [removeGame_none hm]
      exact h
    | some g =>
      rw [removeGame_some_activeGames hm]
      unfold mapDelete
      exact all_filter_of_all _ _ _ h
  | disconnect c =>
    show (handleDisconnect st c).1.activeGames.all sessionInvB = true
    unfold handleDisconnect
    cases h1 : mapGet st.playerSockets c with
    | none => exact h
    | some gid =>
      dsimp only
      cases h2 : mapGet st.activeGames gid with
      | none => exact h
      | some game =>
        dsimp only
        by_cases hh : game.host = some c
        · rw [if_pos hh]
          show (removeGame st gid).activeGames.all sessionInvB = true
          cases hm : mapGet st.activeGames gid with
          | none =>
            rw [removeGame_none hm]
            exact h
          | some g2 =>
            rw [removeGame_some_activeGames hm]
            unfold mapDelete
            exact all_filter_of_all _ _ _ h
        · rw [if_neg hh]
          by_cases hg : game.guest = some c
          · rw [if_pos hg]
            apply all_mapSet _ _ _ _ h
            have hmem := (List.all_eq_true.mp h) (gid, game) (mapGet_eq_some_mem h2)
            unfold sessionInvB at hmem ⊢
            rw [Bool.and_eq_true] at hmem
            simp [hmem.1]
          · rw [if_neg hg]
            exact h
  | sweep now thr =>
    show (cleanupInactiveGames st now thr).activeGames.all sessionInvB = true
    unfold cleanupInactiveGames
    exact all_sweep_fold now thr sessionInvB st.activeGames st h

theorem runOps_inv (ops : List Op) :
    (runOps ops).activeGames.all sessionInvB = true := by
  unfold runOps
  have hgen : ∀ (l : List Op) (s : ServerState),
      s.activeGames.all sessionInvB = true →
      (List.foldl applyOp s l).activeGames.all sessionInvB = true := by
    intro l
    induction l with
    | nil =>
      intro s hs
      exact hs
    | cons op l ih =>
      intro s hs
      rw [List.foldl_cons]
      exact ih _ (inv_applyOp s op hs)
  exact hgen ops initialState rfl

/-- `joinGame` reports failure exactly when the session is absent or its
guest slot is occupied. -/
theorem joinGame_snd_eq_none_iff (st : ServerState) (now : Int) (gid c n : String) :
    (joinGame st now gid c n).2 = none ↔
      (∀ g, mapGet st.activeGames gid = some g → g.guest.isSome = true) := by
  unfold joinGame
  cases hm : mapGet st.activeGames gid with
  | none => simp
  | some g =>
    by_cases hg : g.guest.isSome = true
    · simp [hg]
    · simp [hg]

/-! ### Reductions of the disconnect handler -/

theorem handleDisconnect_guest_eq (st : ServerState) {gid c : String} {g : GameData}
    (hps : mapGet st.playerSockets c = some gid)
    (hgame : mapGet st.activeGames gid = some g)
    (hguest : g.guest = some c) (hhost : ¬ g.host = some c) :
    handleDisconnect st c =
      (⟨mapSet st.activeGames gid
          { g with guest := none, guestName := none, status := Status.waiting },
        mapDelete st.playerSockets c⟩,
       [EmitEvent.guestDisconnected g.host]) := by
  unfold handleDisconnect
  rw [hps]
  dsimp only
  rw [hgame]
  dsimp only
  rw [if_neg hhost, if_pos hguest]

theorem handleDisconnect_host_eq (st : ServerState) {gid c : String} {g : GameData}
    (hps : mapGet st.playerSockets c = some gid)
    (hgame : mapGet st.activeGames gid = some g)
    (hhost : g.host = some c) :
    handleDisconnect st c =
      (⟨(removeGame st gid).activeGames,
        mapDelete (removeGame st gid).playerSockets c⟩,
       match g.guest with
       | some u => [EmitEvent.hostDisconnected (some u)]
       | none => []) := by
  unfold handleDisconnect
  rw [hps]
  dsimp only
  rw [hgame]
  dsimp only
  rw [if_pos hhost]

/-! ### Claim theorems -/

/-- C1: after every sequence of `createSession`, `joinSession`,
`removeSession`, participant-departure and idle-sweep operations, every
session present in the session table has exactly one host: its single
host slot is non-null.  (The "at most one guest" half is enforced by the
data model itself — a session record carries one optional guest slot.) -/
theorem c1_every_session_has_host (ops : List Op) :
    (runOps ops).activeGames.all (fun p => p.2.host.isSome) = true := by
  have h := runOps_inv ops
  rw [List.all_eq_true] at h ⊢
  intro p hp
  have hinv := h p hp
  unfold sessionInvB at hinv
  rw [Bool.and_eq_true] at hinv
  exact hinv.1

/-- C2, counterexample: the claim says a host calling `joinSession` on
its own session with an empty guest slot is rejected with the "full"
signal; in the code the join succeeds (the host becomes its own guest).
In `stA`, `"A"` is the host of `"IIIIII"` and the guest slot is empty,
yet `joinGame` returns a session rather than the `null` failure. -/
theorem c2_join_own_session_accepted_cex :
    ((joinGame stA 200 "IIIIII" "A" "Alice").2).isSome = true := by decide

/-- C2 (amended): on every reachable state, `joinSession` fails with the
"not found or full" signal exactly when no session with the id exists or
the guest slot is occupied; a host joining its own session with an empty
guest slot is accepted (not rejected); and `joinSession` on a session in
`playing` status always fails. -/
theorem c2_joinGame_failure_spec (ops : List Op) (now : Int) (gid c n : String) :
    ((joinGame (runOps ops) now gid c n).2 = none ↔
      (∀ g, mapGet (runOps ops).activeGames gid = some g → g.guest.isSome = true))
    ∧ (∀ g, mapGet (runOps ops).activeGames gid = some g → g.guest = none →
        g.host = some c → ((joinGame (runOps ops) now gid c n).2).isSome = true)
    ∧ (∀ g, mapGet (runOps ops).activeGames gid = some g →
        g.status = Status.playing → (joinGame (runOps ops) now gid c n).2 = none) := by
  refine ⟨joinGame_snd_eq_none_iff _ now gid c n, ?_, ?_⟩
  · intro g hm hg _
    unfold joinGame
    rw [hm]
    dsimp only
    simp [hg]
  · intro g hm hp
    rw [joinGame_snd_eq_none_iff]
    intro g' hm'
    rw [hm] at hm'
    injection hm' with hm'
    subst hm'
    have hinv := runOps_inv ops
    rw [List.all_eq_true] at hinv
    have hg := hinv (gid, g) (mapGet_eq_some_mem hm)
    unfold sessionInvB at hg
    rw [Bool.and_eq_true, Bool.or_eq_true] at hg
    rcases hg.2 with h2 | h2
    · rw [decide_eq_true_eq] at h2
      rw [hp] at h2
      cases h2
    · exact h2

/-- C2 witness: in the reachable state `stAB` the session `"IIIIII"` is
`playing`, so a further `joinGame` fails. -/
theorem c2_witness :
    (joinGame (runOps opsAB) 300 "IIIIII" "C" "Carol").2 = none :=
  (c2_joinGame_failure_spec opsAB 300 "IIIIII" "C" "Carol").2.2 gPlaying
    (by decide) (by decide)

/-- C3 (code bug): the claim — and §4.1 of the spec, which demands
re-rolling on collision rather than assuming uniqueness — says
`createSession` never overwrites an existing session.  The code performs
no collision check: when the second draw repeats the first (both
`Math.random()` draws start `0.i i i i i i…`), the second `createGame`
replaces Alice's session record under `"IIIIII"` with Bob's, leaving the
table with a single session hosted by `"B"` while Alice's membership
entry still points at the displaced id. -/
theorem c3_collision_overwrites_session :
    stCollide.activeGames = [("IIIIII", gBobCollide)]
    ∧ mapGet stCollide.playerSockets "A" = some "IIIIII" := by decide

/-- C4, counterexample: the claim says guest departure updates the
session's `lastActivity` to the current time.  The disconnect handler
never touches `lastActivity` (it does not even read the clock): on
`stAB` (joined at time `200`), the code's result differs from the
spec-modelled `leaveAsGuest` taken at current time `300`, and coincides
with it only when the "current time" is forced to the stale `200`. -/
theorem c4_lastActivity_not_updated_cex :
    (handleDisconnect stAB "B").1 ≠ leaveAsGuestSpec stAB 300 "IIIIII"
    ∧ (handleDisconnect stAB "B").1 = leaveAsGuestSpec stAB 200 "IIIIII" := by
  decide

/-- C4 (amended): after a guest disconnection the guest slot and guest
name are cleared, the status is `waiting`, the guest's membership entry
is removed, every other membership entry (in particular the host's) is
unchanged, the host is notified, and the session's `lastActivity` is
left unchanged (not updated to the current time). -/
theorem c4_guest_disconnect_spec (st : ServerState) (gid c : String) (g : GameData)
    (hps : mapGet st.playerSockets c = some gid)
    (hgame : mapGet st.activeGames gid = some g)
    (hguest : g.guest = some c) (hhost : ¬ g.host = some c) :
    mapGet (handleDisconnect st c).1.activeGames gid =
      some { g with guest := none, guestName := none, status := Status.waiting }
    ∧ mapGet (handleDisconnect st c).1.playerSockets c = none
    ∧ (∀ x, x ≠ c → mapGet (handleDisconnect st c).1.playerSockets x
        = mapGet st.playerSockets x)
    ∧ (handleDisconnect st c).2 = [EmitEvent.guestDisconnected g.host] := by
  rw [handleDisconnect_guest_eq st hps hgame hguest hhost]
  refine ⟨mapGet_mapSet_self _ _ _, mapGet_mapDelete_self _ _, ?_, rfl⟩
  intro x hx
  exact mapGet_mapDelete_ne _ hx

/-- C4 witness: guest `"B"` leaving the playing session `stAB`. -/
theorem c4_witness :
    mapGet (handleDisconnect stAB "B").1.activeGames "IIIIII" =
      some { gPlaying with guest := none, guestName := none, status := Status.waiting }
    ∧ mapGet (handleDisconnect stAB "B").1.playerSockets "B" = none
    ∧ (∀ x, x ≠ "B" → mapGet (handleDisconnect stAB "B").1.playerSockets x
        = mapGet stAB.playerSockets x)
    ∧ (handleDisconnect stAB "B").2 = [EmitEvent.guestDisconnected gPlaying.host] :=
  c4_guest_disconnect_spec stAB "IIIIII" "B" gPlaying
    (by decide) (by decide) (by decide) (by decide)

/-- C5: `removeSession` is idempotent — a no-op when the id is absent —
and when the session exists it deletes the session record and the
membership entries of its host and (when present) guest; a later
`joinSession` with the stale id fails not-found and leaves the state
unchanged. -/
theorem c5_removeGame_spec (st : ServerState) (gid : String) (now : Int)
    (c n : String) :
    (mapGet st.activeGames gid = none → removeGame st gid = st)
    ∧ (∀ g, mapGet st.activeGames gid = some g →
        mapGet (removeGame st gid).activeGames gid = none
        ∧ (∀ x, g.host = some x →
            mapGet (removeGame st gid).playerSockets x = none)
        ∧ (∀ u, g.guest = some u →
            mapGet (removeGame st gid).playerSockets u = none)
        ∧ (joinGame (removeGame st gid) now gid c n).2 = none
        ∧ (joinGame (removeGame st gid) now gid c n).1 = removeGame st gid) := by
  constructor
  · intro h
    exact removeGame_none h
  · intro g hm
    have hnone : mapGet (removeGame st gid).activeGames gid = none := by
      rw [removeGame_some_activeGames hm]
      exact mapGet_mapDelete_self _ _
    have hjoin : (joinGame (removeGame st gid) now gid c n).2 = none ∧
        (joinGame (removeGame st gid) now gid c n).1 = removeGame st gid := by
      unfold joinGame
      rw [hnone]
      exact ⟨rfl, rfl⟩
    refine ⟨hnone, ?_, ?_, hjoin.1, hjoin.2⟩
    · intro x hx
      unfold removeGame
      rw [hm]
      dsimp only
      rw [hx]
      dsimp only
      cases hg : g.guest with
      | none => exact mapGet_mapDelete_self _ _
      | some u =>
        by_cases hxu : x = u
        · subst hxu
          exact mapGet_mapDelete_self _ _
        · rw [mapGet_mapDelete_ne _ hxu]
          exact mapGet_mapDelete_self _ _
    · intro u hu
      unfold removeGame
      rw [hm]
      dsimp only
      rw [hu]
      dsimp only
      exact mapGet_mapDelete_self _ _

/-- C5 witness: removing the playing session of `stAB` deletes the
record and both membership entries, and a stale re-join fails. -/
theorem c5_witness :
    mapGet (removeGame stAB "IIIIII").activeGames "IIIIII" = none
    ∧ mapGet (removeGame stAB "IIIIII").playerSockets "A" = none
    ∧ mapGet (removeGame stAB "IIIIII").playerSockets "B" = none
    ∧ (joinGame (removeGame stAB "IIIIII") 400 "IIIIII" "C" "Carol").2 = none := by
  have h := (c5_removeGame_spec stAB "IIIIII" 400 "C" "Carol").2 gPlaying (by decide)
  exact ⟨h.1, h.2.1 "A" (by decide), h.2.2.1 "B" (by decide), h.2.2.2.1⟩

/-- C6: `sweepIdle` removes exactly the sessions whose `lastActivity` is
older than `now - threshold`, and every surviving session keeps its
entire record (all field values) unchanged — the resulting table is
literally the filtered original. -/
theorem c6_sweepIdle_removes_exactly_stale (st : ServerState) (now thr : Int)
    (hnd : (st.activeGames.map Prod.fst).Nodup) :
    (cleanupInactiveGames st now thr).activeGames
      = st.activeGames.filter (fun q => !decide (q.2.lastActivity < now - thr)) := by
  rw [cleanup_activeGames st now thr hnd]
  apply List.filter_congr
  intro q _
  congr 1
  rw [decide_eq_decide]
  omega

/-- C6 witness: sweeping `stAB` (lastActivity `200`) at time `1000` with
threshold `500` removes the session; with threshold `900` it is kept
with its record intact. -/
theorem c6_witness :
    (cleanupInactiveGames stAB 1000 500).activeGames = []
    ∧ (cleanupInactiveGames stAB 1000 900).activeGames = [("IIIIII", gPlaying)] := by
  constructor
  · rw [c6_sweepIdle_removes_exactly_stale stAB 1000 500 (by decide)]
    decide
  · rw [c6_sweepIdle_removes_exactly_stale stAB 1000 900 (by decide)]
    decide

/-- C7: a `ballUpdate`, `scoreUpdate` or `timerUpdate` sent by a
connection that is not the registered host of its current session
(including the session's guest, and any connection bound to no session)
is silently discarded: the state is unchanged (including `lastActivity`)
and no outbound event is emitted. -/
theorem c7_relay_from_nonhost_dropped (st : ServerState) (now : Int)
    (sender : String) (b : BallV) (l r t : Int)
    (h : isRegisteredHost st sender = false) :
    handleBallUpdate st now sender b = (st, [])
    ∧ handleScoreUpdate st now sender l r = (st, [])
    ∧ handleTimerUpdate st now sender t = (st, []) := by
  have hnh : ∀ gid game, mapGet st.playerSockets sender = some gid →
      mapGet st.activeGames gid = some game → ¬ game.host = some sender := by
    intro gid game h1 h2
    unfold isRegisteredHost at h
    rw [h1] at h
    dsimp only at h
    rw [h2] at h
    dsimp only at h
    exact of_decide_eq_false h
  refine ⟨?_, ?_, ?_⟩
  · unfold handleBallUpdate
    cases h1 : mapGet st.playerSockets sender with
    | none => rfl
    | some gid =>
      dsimp only
      cases h2 : mapGet st.activeGames gid with
      | none => rfl
      | some game =>
        dsimp only
        rw [if_neg (hnh gid game h1 h2)]
  · unfold handleScoreUpdate
    cases h1 : mapGet st.playerSockets sender with
    | none => rfl
    | some gid =>
      dsimp only
      cases h2 : mapGet st.activeGames gid with
      | none => rfl
      | some game =>
        dsimp only
        rw [if_neg (hnh gid game h1 h2)]
  · unfold handleTimerUpdate
    cases h1 : mapGet st.playerSockets sender with
    | none => rfl
    | some gid =>
      dsimp only
      cases h2 : mapGet st.activeGames gid with
      | none => rfl
      | some game =>
        dsimp only
        rw [if_neg (hnh gid game h1 h2)]

/-- C7 witness: guest `"B"` of the playing session in `stAB` sends all
three relay events; each is dropped without state change or emission. -/
theorem c7_witness :
    handleBallUpdate stAB 300 "B" ⟨1, 2⟩ = (stAB, [])
    ∧ handleScoreUpdate stAB 300 "B" 3 4 = (stAB, [])
    ∧ handleTimerUpdate stAB 300 "B" 90 = (stAB, []) :=
  c7_relay_from_nonhost_dropped stAB 300 "B" ⟨1, 2⟩ 3 4 90 (by decide)

/-- C8, counterexample: the claim says every possible draw yields a
6-character id.  `Math.random()` can return `0.5`, whose base-36
expansion is the single digit `18` (`"0.i"`); `substring(2, 8)` then
yields the 1-character id `"I"`. -/
theorem c8_short_id_cex :
    (generateGameId [18]).length = 1 ∧ (generateGameId [18]).length ≠ 6 := by
  decide

/-- C8 (amended): for every random draw the generated identifier is an
uppercase alphanumeric token of at most 6 characters, and exactly 6
whenever the draw's base-36 expansion has at least 6 digits (the
overwhelmingly likely case). -/
theorem c8_generateGameId_shape (ds : List (Fin 36)) :
    (generateGameId ds).length ≤ 6
    ∧ (6 ≤ ds.length → (generateGameId ds).length = 6)
    ∧ ∀ ch ∈ (generateGameId ds).data,
        ('0' ≤ ch ∧ ch ≤ '9') ∨ ('A' ≤ ch ∧ ch ≤ 'Z') := by
  refine ⟨?_, ?_, ?_⟩
  · show ((ds.take 6).map digitCharUpper).length ≤ 6
    rw [List.length_map, List.length_take]
    exact min_le_left _ _
  · intro h6
    show ((ds.take 6).map digitCharUpper).length = 6
    rw [List.length_map, List.length_take]
    omega
  · intro ch hch
    obtain ⟨d, _, rfl⟩ := List.mem_map.mp hch
    have hall : ∀ e : Fin 36,
        ('0' ≤ digitCharUpper e ∧ digitCharUpper e ≤ '9')
        ∨ ('A' ≤ digitCharUpper e ∧ digitCharUpper e ≤ 'Z') := by decide
    exact hall d

/-- C8 witness: the six-digit draw behind `stA` yields the 6-character
id `"IIIIII"`. -/
theorem c8_witness : (generateGameId dsI).length = 6 :=
  (c8_generateGameId_shape dsI).2.1 (by decide)

/-- C9, counterexample: the claim says each list entry's `createdAt` is
the session's creation timestamp.  The code fills it from
`lastActivity`: the session of `stAfterLeave` was created at time `100`
(its record's initial `lastActivity`), but after the join at `200` and
the guest's departure the list shows `createdAt = 200`, not the
creation-time entry. -/
theorem c9_createdAt_not_creation_time_cex :
    (createGame initialState dsI 100 "A" "Alice").2.lastActivity = 100
    ∧ getAvailableGames stAfterLeave = [⟨"IIIIII", "Alice\x27s Game", 200⟩]
    ∧ getAvailableGames stAfterLeave
        ≠ [⟨"IIIIII", "Alice\x27s Game",
            (createGame initialState dsI 100 "A" "Alice").2.lastActivity⟩] := by
  decide

/-- C9 (amended): `listWaiting` returns exactly the sessions whose
status is `waiting` — in particular a session whose guest has just
disconnected reappears — and each entry is
`{id, name, createdAt}` where `createdAt` holds the session's
`lastActivity` value (which equals the creation time only for sessions
never joined or touched since creation). -/
theorem c9_listWaiting_spec (st : ServerState) :
    (∀ e, e ∈ getAvailableGames st ↔
      ∃ p, p ∈ st.activeGames ∧ p.2.status = Status.waiting
        ∧ e = ⟨p.2.id, p.2.hostName ++ "\x27s Game", p.2.lastActivity⟩)
    ∧ (∀ gid g c, mapGet st.playerSockets c = some gid →
        mapGet st.activeGames gid = some g → g.guest = some c →
        ¬ g.host = some c →
        ∃ e, e ∈ getAvailableGames (handleDisconnect st c).1 ∧ e.id = g.id
          ∧ e.createdAt = g.lastActivity) := by
  constructor
  · intro e
    unfold getAvailableGames
    constructor
    · intro he
      obtain ⟨g, hg, rfl⟩ := List.mem_map.mp he
      rw [List.mem_filter] at hg
      obtain ⟨hgm, hgw⟩ := hg
      obtain ⟨p, hp, rfl⟩ := List.mem_map.mp hgm
      exact ⟨p, hp, of_decide_eq_true hgw, rfl⟩
    · rintro ⟨p, hp, hw, rfl⟩
      exact List.mem_map.mpr ⟨p.2,
        List.mem_filter.mpr ⟨List.mem_map_of_mem Prod.snd hp, decide_eq_true hw⟩, rfl⟩
  · intro gid g c hps hgame hguest hhost
    rw [handleDisconnect_guest_eq st hps hgame hguest hhost]
    refine ⟨⟨g.id, g.hostName ++ "\x27s Game", g.lastActivity⟩, ?_, rfl, rfl⟩
    unfold getAvailableGames
    apply List.mem_map.mpr
    refine ⟨{ g with guest := none, guestName := none, status := Status.waiting },
      ?_, rfl⟩
    apply List.mem_filter.mpr
    refine ⟨?_, rfl⟩
    exact List.mem_map_of_mem Prod.snd
      (mem_mapSet_self st.activeGames gid
        { g with guest := none, guestName := none, status := Status.waiting })

/-- C9 witness: after guest `"B"` leaves the playing session of `stAB`,
the session reappears in the list with `createdAt` equal to its (stale)
`lastActivity`. -/
theorem c9_witness :
    ∃ e, e ∈ getAvailableGames (handleDisconnect stAB "B").1 ∧ e.id = gPlaying.id
      ∧ e.createdAt = gPlaying.lastActivity :=
  (c9_listWaiting_spec stAB).2 "IIIIII" gPlaying "B"
    (by decide) (by decide) (by decide) (by decide)

/-- C10: a registered host issuing `createGame` again gets a second
session; its membership entry is overwritten to the new id while the
old session `S` stays in the table with the connection still recorded
as host.  A subsequent disconnect of that connection removes only the
new session (every other id is untouched and `S` survives), and `S` is
finally removed by an idle sweep once it is over the threshold. -/
theorem c10_recreate_by_host (st : ServerState) (sid : String) (S : GameData)
    (c : String) (ds : List (Fin 36)) (now now2 thr : Int) (nm : String)
    (hS : mapGet st.activeGames sid = some S)
    (hhost : S.host = some c)
    (hfresh : generateGameId ds ≠ sid)
    (hnd : (st.activeGames.map Prod.fst).Nodup)
    (hidle : now2 - S.lastActivity > thr) :
    mapGet ((createGame st ds now c nm).1).playerSockets c
      = some (generateGameId ds)
    ∧ mapGet ((createGame st ds now c nm).1).activeGames sid = some S
    ∧ mapGet ((createGame st ds now c nm).1).activeGames (generateGameId ds)
        = some ((createGame st ds now c nm).2)
    ∧ mapGet ((handleDisconnect (createGame st ds now c nm).1 c).1).activeGames
        (generateGameId ds) = none
    ∧ mapGet ((handleDisconnect (createGame st ds now c nm).1 c).1).activeGames sid
        = some S
    ∧ (∀ k, k ≠ generateGameId ds →
        mapGet ((handleDisconnect (createGame st ds now c nm).1 c).1).activeGames k
          = mapGet ((createGame st ds now c nm).1).activeGames k)
    ∧ mapGet (cleanupInactiveGames
        ((handleDisconnect (createGame st ds now c nm).1 c).1) now2 thr).activeGames
        sid = none := by
  have h1 : mapGet ((createGame st ds now c nm).1).playerSockets c
      = some (generateGameId ds) :=
    mapGet_mapSet_self st.playerSockets c (generateGameId ds)
  have hne : sid ≠ generateGameId ds := fun hh => hfresh hh.symm
  have h2 : mapGet ((createGame st ds now c nm).1).activeGames sid = some S := by
    show mapGet (mapSet st.activeGames (generateGameId ds)
      ((createGame st ds now c nm).2)) sid = some S
    rw [mapGet_mapSet_ne st.activeGames _ hne]
    exact hS
  have h3 : mapGet ((createGame st ds now c nm).1).activeGames (generateGameId ds)
      = some ((createGame st ds now c nm).2) :=
    mapGet_mapSet_self st.activeGames (generateGameId ds) _
  have hhost2 : ((createGame st ds now c nm).2).host = some c := rfl
  have hdisc := handleDisconnect_host_eq ((createGame st ds now c nm).1) h1 h3 hhost2
  have hrem : (removeGame (createGame st ds now c nm).1 (generateGameId ds)).activeGames
      = mapDelete ((createGame st ds now c nm).1).activeGames (generateGameId ds) :=
    removeGame_some_activeGames h3
  have hag2 : ((handleDisconnect (createGame st ds now c nm).1 c).1).activeGames
      = mapDelete ((createGame st ds now c nm).1).activeGames (generateGameId ds) := by
    rw [hdisc]
    exact hrem
  have h4 : mapGet ((handleDisconnect (createGame st ds now c nm).1 c).1).activeGames
      (generateGameId ds) = none := by
    rw [hag2]
    exact mapGet_mapDelete_self _ _
  have h5 : mapGet ((handleDisconnect (createGame st ds now c nm).1 c).1).activeGames
      sid = some S := by
    rw [hag2, mapGet_mapDelete_ne _ hne]
    exact h2
  have h6 : ∀ k, k ≠ generateGameId ds →
      mapGet ((handleDisconnect (createGame st ds now c nm).1 c).1).activeGames k
        = mapGet ((createGame st ds now c nm).1).activeGames k := by
    intro k hk
    rw [hag2, mapGet_mapDelete_ne _ hk]
  have hnd2 : (((handleDisconnect (createGame st ds now c nm).1 c).1).activeGames.map
      Prod.fst).Nodup := by
    rw [hag2]
    exact keys_nodup_mapDelete _ _
      (keys_nodup_mapSet st.activeGames (generateGameId ds) _ hnd)
  have h7 : mapGet (cleanupInactiveGames
      ((handleDisconnect (createGame st ds now c nm).1 c).1) now2 thr).activeGames
      sid = none := by
    rw [cleanup_mapGet _ now2 thr hnd2 sid, h5]
    show (if now2 - S.lastActivity > thr then none else some S) = none
    rw [if_pos hidle]
  exact ⟨h1, h2, h3, h4, h5, h6, h7⟩

/-- C10 witness: host `"A"` of `stA` creates a second session
(`"AAAAAA"`) at time `150`, disconnects (removing only `"AAAAAA"`), and
the surviving `"IIIIII"` is reaped by a sweep at time `1000` with
threshold `500`. -/
theorem c10_witness :
    mapGet ((createGame stA dsJ 150 "A" "Alice").1).playerSockets "A"
      = some "AAAAAA"
    ∧ mapGet ((handleDisconnect (createGame stA dsJ 150 "A" "Alice").1 "A").1).activeGames
        "IIIIII" = some gAlice
    ∧ mapGet (cleanupInactiveGames
        ((handleDisconnect (createGame stA dsJ 150 "A" "Alice").1 "A").1)
        1000 500).activeGames "IIIIII" = none := by
  have h := c10_recreate_by_host stA "IIIIII" gAlice "A" dsJ 150 1000 500 "Alice"
    (by decide) (by decide) (by decide) (by decide) (by decide)
  exact ⟨h.1, h.2.2.2.2.1, h.2.2.2.2.2.2⟩
